import Mathlib

/-!
# Verification of the `fast-server` connection streamer

Shallow embedding of `src/fast-server/src/main.rs`.

The program is a throughput-testing HTTP server.  Its single interesting
function is `handle_client`, which reads an initial request, writes a fixed
header block, then streams 1 MiB chunks in HTTP chunked-transfer framing
until a shared byte budget is exhausted, and finally writes the terminal
chunk marker.

Modelling choices:
* Every fallible socket operation (`write_all`, `close`) consumes one index
  of a success oracle `orac : Nat → Bool`; `orac i = true` means the `i`-th
  attempted operation succeeds.  Successful writes are recorded in a trace;
  a `close` attempt is recorded whether or not it succeeds.
* The five distinct byte strings the server ever writes are the
  constructors of `Msg`; `Msg.bytes` gives their concrete byte content,
  copied from the source literals.
* The initial `stream.read(buf)` is modelled by its result: an error, or a
  pair of the byte count and the bytes read (the source discards the bytes).
* `vec![0u8; 1024 * 1024]` inside the loop body is modelled by
  `allocPayload`, which bumps an allocation counter (the source allocates a
  fresh payload buffer on every iteration).
* The atomic `MAX_SEND_BYTES` is passed to `handle_client` as the value
  loaded at line `let max_bytes = MAX_SEND_BYTES.load(Ordering::Acquire)`;
  the startup write ordering of `main` is modelled by `mainEvents`.
-/

namespace FastServer

/-- Chunk size: the source writes `vec![0u8; 1024 * 1024]` payloads and the
chunk-size header `"100000\r\n"` (`0x100000 = 1048576`). -/
def chunkSize : Nat := 1024 * 1024

/-- `static MAX_SEND_BYTES: AtomicUsize = AtomicUsize::new(1024 * 1024 * 1024 * 32)`. -/
def defaultMaxSendBytes : Nat := 1024 * 1024 * 1024 * 32

/-- The fixed header block written by `handle_client`, verbatim from the
source (`let headers = "..."`). -/
def headersString : String :=
  "HTTP/1.1 200 OK\r\nConnection: keep-alive\r\nContent-Type: application/octet-stream\r\nTransfer-Encoding: chunked\r\n\r\n"

/-- Bytes of an ASCII string (every character of the source literals is
ASCII, so UTF-8 bytes coincide with code points). -/
def strBytes (s : String) : List Nat := s.data.map Char.toNat

/-- The five byte strings `handle_client` ever writes. -/
inductive Msg
  | headerBlock
  | sizeHeader
  | payload
  | terminator
  | finalMarker
deriving DecidableEq, Repr

/-- Concrete byte content of each write, from the source literals:
`headers`, `b"100000\r\n"`, `vec![0u8; 1024 * 1024]`, `b"\r\n"`,
`b"0\r\n\r\n"`. -/
def Msg.bytes : Msg → List Nat
  | .headerBlock => strBytes headersString
  | .sizeHeader => strBytes "100000\r\n"
  | .payload => List.replicate chunkSize 0
  | .terminator => strBytes "\r\n"
  | .finalMarker => strBytes "0\r\n\r\n"

/-- Observable socket events: a successful write of a message, or a close
attempt. -/
inductive Event
  | write (m : Msg)
  | close
deriving DecidableEq, Repr

/-- Rust `Result<(), _>` outcome of the `handle_client` task. -/
inductive Outcome
  | ok
  | err
deriving DecidableEq, Repr

/-- Connection state: index of the next fallible socket operation, trace of
socket events so far, and the number of payload-buffer allocations
(`vec![0u8; 1024 * 1024]`) performed so far. -/
structure St where
  idx : Nat
  trace : List Event
  payloadAllocs : Nat
deriving DecidableEq, Repr

/-- Initial connection state. -/
def initSt : St := ⟨0, [], 0⟩

/-- Model of `stream.write_all(..)`: the oracle decides success; a
successful write is appended to the trace; either way the operation index
advances. -/
def attemptWrite (orac : Nat → Bool) (s : St) (m : Msg) : Bool × St :=
  (orac s.idx,
   ⟨s.idx + 1, s.trace ++ (if orac s.idx then [Event.write m] else []), s.payloadAllocs⟩)

/-- Model of `stream.close()`: the attempt is always recorded; the oracle
decides whether it succeeds. -/
def attemptClose (orac : Nat → Bool) (s : St) : Bool × St :=
  (orac s.idx, ⟨s.idx + 1, s.trace ++ [Event.close], s.payloadAllocs⟩)

/-- Model of `let mut chunk = vec![0u8; 1024 * 1024];` in the loop body:
one fresh payload-buffer allocation. -/
def allocPayload (s : St) : St := ⟨s.idx, s.trace, s.payloadAllocs + 1⟩

/-- How the streaming loop ended. -/
inductive LoopRes
  | finished
  | earlyOk
  | earlyErr
deriving DecidableEq, Repr

/-- Result of the streaming loop: how it ended, the final `sent_count`, and
the final connection state. -/
structure LoopOut where
  res : LoopRes
  sent : Nat
  st : St
deriving DecidableEq, Repr

/-- The streaming loop of `handle_client`
(`while sent_count < max_bytes { ... }`), step for step:
1. `stream.write_all(b"100000\r\n").await.0?` — on failure the `?`
   propagates the error (no close attempt): `.earlyErr`.
2. `let mut chunk = vec![0u8; 1024 * 1024];` — a fresh allocation.
3. `let BufResult(result, c) = stream.write_all(chunk).await;` — the
   payload write; its result is only examined later.
4. `_ = stream.write_all(b"\r\n").await.0;` — the frame terminator; its
   result is discarded.
5. `match result`: on `Ok`, `sent_count += chunk.len()` (the returned
   buffer `c` still has length `1024 * 1024`) and the loop continues; on
   `Err`, `stream.close().await?` is attempted (its failure propagates)
   and the task returns `Ok(())`. -/
def streamLoop (orac : Nat → Bool) (maxBytes sentCount : Nat) (s : St) : LoopOut :=
  if h : sentCount < maxBytes then
    let p1 := attemptWrite orac s .sizeHeader
    if p1.1 then
      let s1 := allocPayload p1.2
      let p2 := attemptWrite orac s1 .payload
      let p3 := attemptWrite orac p2.2 .terminator
      if p2.1 then
        streamLoop orac maxBytes (sentCount + chunkSize) p3.2
      else
        let p4 := attemptClose orac p3.2
        if p4.1 then ⟨.earlyOk, sentCount, p4.2⟩ else ⟨.earlyErr, sentCount, p4.2⟩
    else ⟨.earlyErr, sentCount, p1.2⟩
  else ⟨.finished, sentCount, s⟩
termination_by maxBytes - sentCount
decreasing_by simp only [chunkSize]; omega

/-- Result of a `handle_client` task: its `Result` outcome, the final
`sent_count`, and the final connection state. -/
structure HOut where
  outcome : Outcome
  sent : Nat
  st : St
deriving DecidableEq, Repr

/-- `handle_client`, with the initial read modelled by its result and the
loaded `MAX_SEND_BYTES` value passed as `maxBytes`:
* `let result = stream.read(buf).await; if result.0? == 0 return Ok(());`
  — a read error propagates (`.err`); a zero-byte read returns `Ok`
  having written nothing; the bytes read are discarded.
* `stream.write_all(headers.as_bytes()).await.0?` — header emission; its
  failure propagates.  (`set_nodelay` has no observable effect here.)
* the streaming loop (`streamLoop`) starting from `sent_count = 0`;
* after a `.finished` loop, `stream.write_all(b"0\r\n\r\n").await.0?` —
  final-marker emission, whose failure propagates. -/
def handle_client (orac : Nat → Bool) (maxBytes : Nat)
    (readRes : Except Unit (Nat × List Nat)) : HOut :=
  match readRes with
  | .error _ => ⟨.err, 0, initSt⟩
  | .ok (n, _req) =>
    if n = 0 then ⟨.ok, 0, initSt⟩
    else
      let p := attemptWrite orac initSt .headerBlock
      if p.1 then
        let lo := streamLoop orac maxBytes 0 p.2
        match lo.res with
        | .finished =>
          let pf := attemptWrite orac lo.st .finalMarker
          if pf.1 then ⟨.ok, lo.sent, pf.2⟩ else ⟨.err, lo.sent, pf.2⟩
        | .earlyOk => ⟨.ok, lo.sent, lo.st⟩
        | .earlyErr => ⟨.err, lo.sent, lo.st⟩
      else ⟨.err, 0, p.2⟩

/-- The all-successful oracle: every socket operation succeeds. -/
def allOk : Nat → Bool := fun _ => true

/-- Oracle on which exactly the `j`-th socket operation fails. -/
def failAt (j : Nat) : Nat → Bool := fun i => !(i == j)

/-- Number of iterations the streaming loop performs when no payload write
fails, mirroring the loop structure of `streamLoop`. -/
def loopIters (maxBytes sentCount : Nat) : Nat :=
  if sentCount < maxBytes then loopIters maxBytes (sentCount + chunkSize) + 1 else 0
termination_by maxBytes - sentCount
decreasing_by simp only [chunkSize]; omega

/-- The three write events of one successful chunk frame. -/
def frameEvents : List Event :=
  [Event.write .sizeHeader, Event.write .payload, Event.write .terminator]

/-- The write events of `k` successful chunk frames. -/
def framesTrace : Nat → List Event
  | 0 => []
  | k + 1 => frameEvents ++ framesTrace k

theorem loopIters_exit (maxBytes sentCount : Nat) (h : ¬ sentCount < maxBytes) :
    loopIters maxBytes sentCount = 0 := by
  rw [loopIters, if_neg h]

theorem loopIters_step (maxBytes sentCount : Nat) (h : sentCount < maxBytes) :
    loopIters maxBytes sentCount = loopIters maxBytes (sentCount + chunkSize) + 1 := by
  rw [loopIters, if_pos h]

/-- Closed form: the loop with budget `maxBytes` starting at `sentCount`
runs `ceil((maxBytes - sentCount) / chunkSize)` times. -/
theorem loopIters_eq (maxBytes sentCount : Nat) :
    loopIters maxBytes sentCount = (maxBytes - sentCount + chunkSize - 1) / chunkSize := by
  have aux : ∀ d maxB sent, maxB - sent ≤ d →
      loopIters maxB sent = (maxB - sent + chunkSize - 1) / chunkSize := by
    intro d
    induction d with
    | zero =>
      intro maxB sent h
      rw [loopIters_exit maxB sent (by omega)]
      simp only [chunkSize] at *
      omega
    | succ d IH =>
      intro maxB sent h
      by_cases hlt : sent < maxB
      · rw [loopIters_step maxB sent hlt,
          IH maxB (sent + chunkSize) (by simp only [chunkSize] at *; omega)]
        simp only [chunkSize] at *
        omega
      · rw [loopIters_exit maxB sent hlt]
        simp only [chunkSize] at *
        omega
  exact aux (maxBytes - sentCount) maxBytes sentCount le_rfl

theorem streamLoop_exit (orac : Nat → Bool) (maxBytes sentCount : Nat) (s : St)
    (h : ¬ sentCount < maxBytes) :
    streamLoop orac maxBytes sentCount s = ⟨.finished, sentCount, s⟩ := by
  rw [streamLoop, dif_neg h]

/-- One successful iteration of the streaming loop: the chunk-size header,
payload and terminator writes succeed, so the loop appends a full frame,
allocates one payload buffer, and continues with `sent_count + chunkSize`. -/
theorem streamLoop_succStep (orac : Nat → Bool) (maxB sent : Nat) (s : St)
    (hlt : sent < maxB) (h0 : orac s.idx = true) (h1 : orac (s.idx + 1) = true)
    (h2 : orac (s.idx + 2) = true) :
    streamLoop orac maxB sent s =
      streamLoop orac maxB (sent + chunkSize)
        ⟨s.idx + 1 + 1 + 1,
         s.trace ++ [Event.write .sizeHeader] ++ [Event.write .payload]
           ++ [Event.write .terminator],
         s.payloadAllocs + 1⟩ := by
  rw [streamLoop, dif_pos hlt]
  simp only [attemptWrite, allocPayload, h0, h1, h2, if_true]

/-- Assembling one frame's worth of state change, stated over an abstract
iteration count `k`. -/
theorem loopOut_frame_step (a b c : Nat) (t : List Event) (k : Nat) :
    (⟨.finished, a + chunkSize + chunkSize * k,
      ⟨b + 1 + 1 + 1 + 3 * k,
       (t ++ [Event.write .sizeHeader] ++ [Event.write .payload]
         ++ [Event.write .terminator]) ++ framesTrace k,
       c + 1 + k⟩⟩ : LoopOut) =
    ⟨.finished, a + chunkSize * (k + 1),
      ⟨b + 3 * (k + 1), t ++ framesTrace (k + 1), c + (k + 1)⟩⟩ := by
  simp only [LoopOut.mk.injEq, St.mk.injEq, framesTrace, frameEvents, Nat.mul_succ,
    List.append_assoc, List.singleton_append, List.cons_append, List.nil_append,
    true_and]
  omega

/-- If every socket operation the loop will attempt succeeds (the oracle is
true on the `3 * loopIters` indices starting at `s.idx`), the loop finishes,
sends `chunkSize` bytes per iteration, emits one full frame per iteration,
and allocates one payload buffer per iteration. -/
theorem streamLoop_ok_of (orac : Nat → Bool) (maxBytes sentCount : Nat) (s : St)
    (horac : ∀ i, s.idx ≤ i → i < s.idx + 3 * loopIters maxBytes sentCount →
      orac i = true) :
    streamLoop orac maxBytes sentCount s =
      ⟨.finished, sentCount + chunkSize * loopIters maxBytes sentCount,
        ⟨s.idx + 3 * loopIters maxBytes sentCount,
         s.trace ++ framesTrace (loopIters maxBytes sentCount),
         s.payloadAllocs + loopIters maxBytes sentCount⟩⟩ := by
  have aux : ∀ d orac maxB sent (s : St), maxB - sent ≤ d →
      (∀ i, s.idx ≤ i → i < s.idx + 3 * loopIters maxB sent → orac i = true) →
      streamLoop orac maxB sent s =
        ⟨.finished, sent + chunkSize * loopIters maxB sent,
          ⟨s.idx + 3 * loopIters maxB sent,
           s.trace ++ framesTrace (loopIters maxB sent),
           s.payloadAllocs + loopIters maxB sent⟩⟩ := by
    intro d
    induction d with
    | zero =>
      intro orac maxB sent s h _
      rw [streamLoop_exit orac maxB sent s (by omega),
        loopIters_exit maxB sent (by omega)]
      simp [framesTrace]
    | succ d IH =>
      intro orac maxB sent s h horac
      by_cases hlt : sent < maxB
      · have hit := loopIters_step maxB sent hlt
        have hK : 1 ≤ loopIters maxB sent := by omega
        have h0 : orac s.idx = true := horac s.idx le_rfl (by omega)
        have h1 : orac (s.idx + 1) = true := horac (s.idx + 1) (by omega) (by omega)
        have h2 : orac (s.idx + 2) = true := horac (s.idx + 2) (by omega) (by omega)
        rw [streamLoop_succStep orac maxB sent s hlt h0 h1 h2]
        rw [IH orac maxB (sent + chunkSize)
            ⟨s.idx + 1 + 1 + 1,
             s.trace ++ [Event.write .sizeHeader] ++ [Event.write .payload]
               ++ [Event.write .terminator],
             s.payloadAllocs + 1⟩
            (by simp only [chunkSize] at h ⊢; omega)
            (by
              intro i hi hi2
              dsimp only at hi hi2
              refine horac i (by omega) ?_
              rw [hit]
              omega)]
        dsimp only
        rw [hit]
        exact loopOut_frame_step sent s.idx s.payloadAllocs s.trace
          (loopIters maxB (sent + chunkSize))
      · rw [streamLoop_exit orac maxB sent s hlt, loopIters_exit maxB sent hlt]
        simp [framesTrace]
  exact aux (maxBytes - sentCount) orac maxBytes sentCount s le_rfl horac

/-- A failed chunk-size-header write: the `?` propagates the error, with no
close attempt and nothing appended to the trace. -/
theorem streamLoop_sizeHeaderFail (orac : Nat → Bool) (maxB sent : Nat) (s : St)
    (hlt : sent < maxB) (h0 : orac s.idx = false) :
    streamLoop orac maxB sent s =
      ⟨.earlyErr, sent, ⟨s.idx + 1, s.trace, s.payloadAllocs⟩⟩ := by
  rw [streamLoop, dif_pos hlt]
  simp [attemptWrite, h0]

/-- A successful payload write (whatever the terminator write does): the
loop continues with `sent_count + chunkSize`, the terminator recorded only
if its write succeeded. -/
theorem streamLoop_payloadOkStep (orac : Nat → Bool) (maxB sent : Nat) (s : St)
    (hlt : sent < maxB) (h0 : orac s.idx = true) (h1 : orac (s.idx + 1) = true) :
    streamLoop orac maxB sent s =
      streamLoop orac maxB (sent + chunkSize)
        ⟨s.idx + 1 + 1 + 1,
         s.trace ++ [Event.write .sizeHeader] ++ [Event.write .payload]
           ++ (if orac (s.idx + 2) then [Event.write .terminator] else []),
         s.payloadAllocs + 1⟩ := by
  rw [streamLoop, dif_pos hlt]
  simp only [attemptWrite, allocPayload, h0, h1, if_true]

/-- A failed payload write: the terminator write is still attempted (and
recorded only on success), the close is attempted, and the result is `Ok`
exactly when the close succeeded. -/
theorem streamLoop_payloadFail (orac : Nat → Bool) (maxB sent : Nat) (s : St)
    (hlt : sent < maxB) (h0 : orac s.idx = true) (h1 : orac (s.idx + 1) = false) :
    streamLoop orac maxB sent s =
      ⟨if orac (s.idx + 3) then .earlyOk else .earlyErr, sent,
        ⟨s.idx + 1 + 1 + 1 + 1,
         s.trace ++ [Event.write .sizeHeader]
           ++ (if orac (s.idx + 2) then [Event.write .terminator] else [])
           ++ [Event.close],
         s.payloadAllocs + 1⟩⟩ := by
  rw [streamLoop, dif_pos hlt]
  cases h2 : orac (s.idx + 2) <;> cases h3 : orac (s.idx + 3) <;>
    simp [attemptWrite, attemptClose, allocPayload, h0, h1, h2, h3]

/-- `ceil(B / chunkSize)`: the number of data chunks a budget of `B` bytes
produces. -/
def numChunks (B : Nat) : Nat := (B + chunkSize - 1) / chunkSize

theorem loopIters_zero (B : Nat) : loopIters B 0 = numChunks B := by
  rw [loopIters_eq]
  simp [numChunks]

/-- A `handle_client` run whose initial read returned `n ≠ 0` bytes and
whose `2 + 3 * k` socket operations all succeed (`k` being the number of
loop iterations): it returns `Ok`, its counter ends at `chunkSize * k`, it
emits the header block, `k` full frames and the final marker, and it
allocates `k` payload buffers. -/
theorem handle_client_ok_of (orac : Nat → Bool) (B n : Nat) (req : List Nat) (k : Nat)
    (hn : n ≠ 0) (hk : loopIters B 0 = k)
    (horac : ∀ i, i < 2 + 3 * k → orac i = true) :
    handle_client orac B (.ok (n, req)) =
      ⟨.ok, chunkSize * k,
       ⟨2 + 3 * k,
        Event.write .headerBlock :: (framesTrace k ++ [Event.write .finalMarker]),
        k⟩⟩ := by
  have h0 : orac 0 = true := horac 0 (by omega)
  have hloop := streamLoop_ok_of orac B 0 ⟨1, [Event.write .headerBlock], 0⟩
    (by
      intro i hi hi2
      dsimp only at hi hi2
      rw [hk] at hi2
      exact horac i (by omega))
  rw [hk] at hloop
  dsimp only at hloop
  have hmark : orac (1 + 3 * k) = true := horac (1 + 3 * k) (by omega)
  simp only [handle_client, if_neg hn, attemptWrite, initSt, h0, if_true,
    List.nil_append, Nat.zero_add]
  rw [hloop]
  dsimp only
  simp only [attemptWrite, hmark, if_true, LoopOut.mk.injEq, HOut.mk.injEq,
    St.mk.injEq, List.append_assoc, List.cons_append, List.singleton_append,
    List.nil_append]
  refine ⟨trivial, by omega, by omega, trivial, by omega⟩

/-- All-success specialization: the canonical complete run. -/
theorem handle_client_allOk (B n : Nat) (req : List Nat) (hn : n ≠ 0) :
    handle_client allOk B (.ok (n, req)) =
      ⟨.ok, chunkSize * numChunks B,
       ⟨2 + 3 * numChunks B,
        Event.write .headerBlock ::
          (framesTrace (numChunks B) ++ [Event.write .finalMarker]),
        numChunks B⟩⟩ :=
  handle_client_ok_of allOk B n req (numChunks B) hn (loopIters_zero B)
    (fun _ _ => rfl)

/-- Is this event a successful write of the given message? -/
def isWriteOf (m : Msg) (e : Event) : Bool := e == Event.write m

/-- Is this event a close attempt? -/
def isCloseEv (e : Event) : Bool := e == Event.close

theorem framesTrace_countP_payload (k : Nat) :
    (framesTrace k).countP (isWriteOf .payload) = k := by
  induction k with
  | zero => decide
  | succ k IH =>
    have h1 : frameEvents.countP (isWriteOf .payload) = 1 := by decide
    simp only [framesTrace, List.countP_append, IH, h1]
    omega

theorem framesTrace_countP_marker (k : Nat) :
    (framesTrace k).countP (isWriteOf .finalMarker) = 0 := by
  induction k with
  | zero => decide
  | succ k IH =>
    have h1 : frameEvents.countP (isWriteOf .finalMarker) = 0 := by decide
    simp only [framesTrace, List.countP_append, IH, h1]

theorem framesTrace_countP_close (k : Nat) :
    (framesTrace k).countP isCloseEv = 0 := by
  induction k with
  | zero => decide
  | succ k IH =>
    have h1 : frameEvents.countP isCloseEv = 0 := by decide
    simp only [framesTrace, List.countP_append, IH, h1]

/-- C1: with the chunk size `C = chunkSize = 1 MiB`, a connection whose
initial read returns `n > 0` bytes and whose writes all succeed emits
exactly `ceil(B / C) = numChunks B` data chunks before the terminal chunk,
and the final `sent_count` lies in `[B, B + C)`. -/
theorem C1_chunk_count_and_final_counter (B n : Nat) (req : List Nat) (h : 0 < n) :
    (handle_client allOk B (Except.ok (n, req))).st.trace.countP (isWriteOf .payload)
        = numChunks B
    ∧ numChunks B = (B + chunkSize - 1) / chunkSize
    ∧ B ≤ (handle_client allOk B (Except.ok (n, req))).sent
    ∧ (handle_client allOk B (Except.ok (n, req))).sent < B + chunkSize := by
  rw [handle_client_allOk B n req (by omega)]
  dsimp only
  refine ⟨?_, rfl, ?_, ?_⟩
  · have h1 : isWriteOf Msg.payload (Event.write Msg.headerBlock) = false := by decide
    have h2 : isWriteOf Msg.payload (Event.write Msg.finalMarker) = false := by decide
    simp only [List.countP_cons, List.countP_append, List.countP_nil,
      framesTrace_countP_payload, h1, h2]
    simp
  · simp only [numChunks, chunkSize]
    omega
  · simp only [numChunks, chunkSize]
    omega

/-- Witness for C1 at the spec scenario: budget `2 MiB`, a one-byte initial
read. -/
theorem C1_witness :
    (handle_client allOk (2 * 1024 * 1024) (Except.ok (1, []))).st.trace.countP
        (isWriteOf .payload) = numChunks (2 * 1024 * 1024)
    ∧ numChunks (2 * 1024 * 1024) = (2 * 1024 * 1024 + chunkSize - 1) / chunkSize
    ∧ 2 * 1024 * 1024 ≤ (handle_client allOk (2 * 1024 * 1024) (Except.ok (1, []))).sent
    ∧ (handle_client allOk (2 * 1024 * 1024) (Except.ok (1, []))).sent
        < 2 * 1024 * 1024 + chunkSize :=
  C1_chunk_count_and_final_counter (2 * 1024 * 1024) 1 [] (by decide)

theorem isCloseEv_write (m : Msg) : isCloseEv (Event.write m) = false := by
  cases m <;> rfl

/-- The streaming loop only ever appends chunk-frame writes and close
attempts, so it preserves the count of any event kind it never emits. -/
theorem streamLoop_countP_of_writes (p : Event → Bool)
    (hp1 : p (Event.write .sizeHeader) = false) (hp2 : p (Event.write .payload) = false)
    (hp3 : p (Event.write .terminator) = false) (hpc : p Event.close = false)
    (orac : Nat → Bool) (maxB sent : Nat) (s : St) :
    ((streamLoop orac maxB sent s).st.trace).countP p = s.trace.countP p := by
  have aux : ∀ d orac maxB sent (s : St), maxB - sent ≤ d →
      ((streamLoop orac maxB sent s).st.trace).countP p = s.trace.countP p := by
    intro d
    induction d with
    | zero =>
      intro orac maxB sent s h
      rw [streamLoop_exit orac maxB sent s (by omega)]
    | succ d IH =>
      intro orac maxB sent s h
      by_cases hlt : sent < maxB
      · by_cases h0 : orac s.idx = true
        · by_cases h1 : orac (s.idx + 1) = true
          · rw [streamLoop_payloadOkStep orac maxB sent s hlt h0 h1]
            rw [IH orac maxB (sent + chunkSize) _
              (by simp only [chunkSize] at h ⊢; omega)]
            cases h2 : orac (s.idx + 2) <;>
              simp [List.countP_append, List.countP_cons, hp1, hp2, hp3]
          · rw [streamLoop_payloadFail orac maxB sent s hlt h0 (by simpa using h1)]
            cases h2 : orac (s.idx + 2) <;>
              simp [List.countP_append, List.countP_cons, hp1, hp3, hpc, h2]
        · rw [streamLoop_sizeHeaderFail orac maxB sent s hlt (by simpa using h0)]
      · rw [streamLoop_exit orac maxB sent s hlt]
  exact aux (maxB - sent) orac maxB sent s le_rfl

/-- A loop run that finishes normally never recorded a close attempt. -/
theorem streamLoop_countP_close_finished (orac : Nat → Bool) (maxB sent : Nat) (s : St)
    (hfin : (streamLoop orac maxB sent s).res = .finished) :
    ((streamLoop orac maxB sent s).st.trace).countP isCloseEv
      = s.trace.countP isCloseEv := by
  have aux : ∀ d orac maxB sent (s : St), maxB - sent ≤ d →
      (streamLoop orac maxB sent s).res = .finished →
      ((streamLoop orac maxB sent s).st.trace).countP isCloseEv
        = s.trace.countP isCloseEv := by
    intro d
    induction d with
    | zero =>
      intro orac maxB sent s h _
      rw [streamLoop_exit orac maxB sent s (by omega)]
    | succ d IH =>
      intro orac maxB sent s h hfin
      by_cases hlt : sent < maxB
      · by_cases h0 : orac s.idx = true
        · by_cases h1 : orac (s.idx + 1) = true
          · rw [streamLoop_payloadOkStep orac maxB sent s hlt h0 h1] at hfin ⊢
            rw [IH orac maxB (sent + chunkSize) _
              (by simp only [chunkSize] at h ⊢; omega) hfin]
            cases h2 : orac (s.idx + 2) <;>
              simp [List.countP_append, List.countP_cons, isCloseEv_write]
          · rw [streamLoop_payloadFail orac maxB sent s hlt h0 (by simpa using h1)] at hfin
            dsimp only at hfin
            cases h3 : orac (s.idx + 3) <;> simp [h3] at hfin
        · rw [streamLoop_sizeHeaderFail orac maxB sent s hlt (by simpa using h0)] at hfin
          simp at hfin
      · rw [streamLoop_exit orac maxB sent s hlt]
  exact aux (maxB - sent) orac maxB sent s le_rfl hfin

/-- Unfolding `handle_client` on a nonzero read with a successful header
write, given the loop's result. -/
theorem handle_client_unfold (orac : Nat → Bool) (B n : Nat) (req : List Nat)
    (hn : n ≠ 0) (h0 : orac 0 = true) (lo : LoopOut)
    (hlo : streamLoop orac B 0 ⟨1, [Event.write .headerBlock], 0⟩ = lo) :
    handle_client orac B (Except.ok (n, req)) =
      match lo.res with
      | .finished =>
        if orac lo.st.idx then
          ⟨.ok, lo.sent, ⟨lo.st.idx + 1, lo.st.trace ++ [Event.write .finalMarker],
            lo.st.payloadAllocs⟩⟩
        else ⟨.err, lo.sent, ⟨lo.st.idx + 1, lo.st.trace, lo.st.payloadAllocs⟩⟩
      | .earlyOk => ⟨.ok, lo.sent, lo.st⟩
      | .earlyErr => ⟨.err, lo.sent, lo.st⟩ := by
  simp only [handle_client, if_neg hn, attemptWrite, initSt, h0, if_true,
    List.nil_append, Nat.zero_add]
  rw [hlo]
  cases lo with
  | mk res sent st =>
    cases res with
    | finished =>
      simp only [attemptWrite]
      by_cases hm : orac st.idx = true <;> simp [hm]
    | earlyOk => rfl
    | earlyErr => rfl

/-- C4: if the initial read returns zero bytes, the task ends immediately
with a non-error outcome, a zero counter, and an empty trace: no header
block and no chunk is ever written, whatever the oracle and budget. -/
theorem C4_zero_read_graceful (orac : Nat → Bool) (B : Nat) (req : List Nat) :
    handle_client orac B (Except.ok (0, req)) = ⟨.ok, 0, ⟨0, [], 0⟩⟩ := rfl

/-- C6: on every connection whose initial read returns `n > 0` bytes (all
writes succeeding), the first thing written is the header block, whose bytes
are exactly the fixed string from the source, and the whole result is
independent of the request bytes that were read. -/
theorem C6_fixed_header_block (B n : Nat) (req : List Nat) (h : 0 < n) :
    (handle_client allOk B (Except.ok (n, req))).st.trace.head?
        = some (Event.write .headerBlock)
    ∧ Msg.headerBlock.bytes = strBytes "HTTP/1.1 200 OK\r\nConnection: keep-alive\r\nContent-Type: application/octet-stream\r\nTransfer-Encoding: chunked\r\n\r\n"
    ∧ handle_client allOk B (Except.ok (n, req))
        = handle_client allOk B (Except.ok (1, [])) := by
  rw [handle_client_allOk B n req (by omega), handle_client_allOk B 1 [] (by omega)]
  exact ⟨rfl, rfl, rfl⟩

/-- Witness for C6 at budget `5`, a three-byte read of `[71, 69, 84]`. -/
theorem C6_witness :
    (handle_client allOk 5 (Except.ok (3, [71, 69, 84]))).st.trace.head?
        = some (Event.write .headerBlock)
    ∧ Msg.headerBlock.bytes = strBytes "HTTP/1.1 200 OK\r\nConnection: keep-alive\r\nContent-Type: application/octet-stream\r\nTransfer-Encoding: chunked\r\n\r\n"
    ∧ handle_client allOk 5 (Except.ok (3, [71, 69, 84]))
        = handle_client allOk 5 (Except.ok (1, [])) :=
  C6_fixed_header_block 5 3 [71, 69, 84] (by decide)

/-- C9 counterexample: with budget `2 MiB` (two chunks) the completed run
performs two payload-buffer allocations — one per chunk — so the loop does
not reuse a single payload buffer across iterations. -/
theorem C9_counterexample :
    (handle_client allOk (2 * 1024 * 1024) (Except.ok (1, []))).st.payloadAllocs = 2
    ∧ ¬ (handle_client allOk (2 * 1024 * 1024)
          (Except.ok (1, []))).st.payloadAllocs ≤ 1 := by
  rw [handle_client_allOk (2 * 1024 * 1024) 1 [] (by decide)]
  norm_num [numChunks, chunkSize]

/-- C9 amended: the loop allocates one fresh payload buffer per iteration,
`numChunks B` in a completed run — per-chunk allocation, not reuse. -/
theorem C9_amended_alloc_per_chunk (B n : Nat) (req : List Nat) (h : 0 < n) :
    (handle_client allOk B (Except.ok (n, req))).st.payloadAllocs = numChunks B := by
  rw [handle_client_allOk B n req (by omega)]

/-- Witness for the amended C9 at budget `2 MiB`. -/
theorem C9_amended_witness :
    (handle_client allOk (3 * 1024 * 1024) (Except.ok (2, []))).st.payloadAllocs
      = numChunks (3 * 1024 * 1024) :=
  C9_amended_alloc_per_chunk (3 * 1024 * 1024) 2 [] (by decide)

/-- C2 counterexample: with budget `1` and the chunk-size-header write (the
second socket operation) failing, the task ends with an `Err` outcome and no
close attempt is recorded — contradicting the claim that a write failure at
any step ends the task normally after attempting to close the socket. -/
theorem C2_counterexample :
    (handle_client (failAt 1) 1 (Except.ok (1, []))).outcome = .err
    ∧ (handle_client (failAt 1) 1 (Except.ok (1, []))).st.trace.countP isCloseEv
        = 0 := by
  have hlo : streamLoop (failAt 1) 1 0 ⟨1, [Event.write .headerBlock], 0⟩
      = ⟨.earlyErr, 0, ⟨2, [Event.write .headerBlock], 0⟩⟩ :=
    streamLoop_sizeHeaderFail (failAt 1) 1 0 _ (by decide) (by decide)
  rw [handle_client_unfold (failAt 1) 1 1 [] (by decide) (by decide) _ hlo]
  exact ⟨rfl, by decide⟩

/-- C2 amended: the three write steps of the loop behave differently on
failure.  (a) A chunk-size-header write failure stops the loop at once but
propagates the error (`Err`) with no close attempt.  (b) A payload write
failure stops the loop: the terminator write is still attempted, the close
is attempted, and the task ends `Ok`.  (c) A frame-terminator write failure
is ignored: the loop continues, streams every remaining chunk and ends
normally with the final marker, no close, outcome `Ok`. -/
theorem C2_amended_write_failure_cases (B : Nat) (hB : 0 < B) (req : List Nat) :
    ((handle_client (failAt 1) B (Except.ok (1, req))).outcome = .err
      ∧ (handle_client (failAt 1) B (Except.ok (1, req))).st.trace
          = [Event.write .headerBlock])
    ∧ ((handle_client (failAt 2) B (Except.ok (1, req))).outcome = .ok
      ∧ (handle_client (failAt 2) B (Except.ok (1, req))).st.trace
          = [Event.write .headerBlock, Event.write .sizeHeader,
             Event.write .terminator, Event.close])
    ∧ ((handle_client (failAt 3) B (Except.ok (1, req))).outcome = .ok
      ∧ (handle_client (failAt 3) B (Except.ok (1, req))).st.trace.countP
          (isWriteOf .payload) = numChunks B
      ∧ (handle_client (failAt 3) B (Except.ok (1, req))).st.trace.getLast?
          = some (Event.write .finalMarker)
      ∧ (handle_client (failAt 3) B (Except.ok (1, req))).st.trace.countP
          isCloseEv = 0) := by
  refine ⟨?_, ?_, ?_⟩
  · have hlo : streamLoop (failAt 1) B 0 ⟨1, [Event.write .headerBlock], 0⟩
        = ⟨.earlyErr, 0, ⟨2, [Event.write .headerBlock], 0⟩⟩ :=
      streamLoop_sizeHeaderFail (failAt 1) B 0 _ hB (by decide)
    rw [handle_client_unfold (failAt 1) B 1 req (by decide) (by decide) _ hlo]
    exact ⟨rfl, rfl⟩
  · have hlo := streamLoop_payloadFail (failAt 2) B 0
      ⟨1, [Event.write .headerBlock], 0⟩ hB (by decide) (by decide)
    simp only [failAt] at hlo
    norm_num at hlo
    rw [handle_client_unfold (failAt 2) B 1 req (by decide) (by decide) _ hlo]
    exact ⟨rfl, rfl⟩
  · have hstep := streamLoop_payloadOkStep (failAt 3) B 0
      ⟨1, [Event.write .headerBlock], 0⟩ hB (by decide) (by decide)
    simp only [failAt] at hstep
    norm_num at hstep
    have hrest := streamLoop_ok_of (failAt 3) B chunkSize
      ⟨4, [Event.write .headerBlock, Event.write .sizeHeader, Event.write .payload], 1⟩
      (by
        intro i hi _
        dsimp only at hi
        simp only [failAt, Bool.not_eq_true', beq_eq_false_iff_ne]
        omega)
    dsimp only at hrest
    have hlo := hstep.trans hrest
    have hmark : failAt 3 (4 + 3 * loopIters B chunkSize) = true := by
      simp only [failAt, Bool.not_eq_true', beq_eq_false_iff_ne]
      omega
    rw [handle_client_unfold (failAt 3) B 1 req (by decide) (by decide) _ hlo]
    dsimp only
    rw [if_pos hmark]
    refine ⟨rfl, ?_, ?_, ?_⟩
    · have hpl1 : List.countP (isWriteOf .payload)
          [Event.write Msg.headerBlock, Event.write Msg.sizeHeader,
           Event.write Msg.payload] = 1 := by decide
      have hpl2 : List.countP (isWriteOf .payload) [Event.write Msg.finalMarker]
          = 0 := by decide
      simp only [List.countP_append, hpl1, hpl2, framesTrace_countP_payload,
        loopIters_eq, numChunks, chunkSize]
      omega
    · exact List.getLast?_concat _
    · have hcl1 : List.countP isCloseEv
          [Event.write Msg.headerBlock, Event.write Msg.sizeHeader,
           Event.write Msg.payload] = 0 := by decide
      have hcl2 : List.countP isCloseEv [Event.write Msg.finalMarker] = 0 := by
        decide
      simp only [List.countP_append, hcl1, hcl2, framesTrace_countP_close]

/-- Witness for the amended C2 at budget `1`. -/
theorem C2_amended_witness :
    ((handle_client (failAt 1) 1 (Except.ok (1, [4]))).outcome = .err
      ∧ (handle_client (failAt 1) 1 (Except.ok (1, [4]))).st.trace
          = [Event.write .headerBlock])
    ∧ ((handle_client (failAt 2) 1 (Except.ok (1, [4]))).outcome = .ok
      ∧ (handle_client (failAt 2) 1 (Except.ok (1, [4]))).st.trace
          = [Event.write .headerBlock, Event.write .sizeHeader,
             Event.write .terminator, Event.close])
    ∧ ((handle_client (failAt 3) 1 (Except.ok (1, [4]))).outcome = .ok
      ∧ (handle_client (failAt 3) 1 (Except.ok (1, [4]))).st.trace.countP
          (isWriteOf .payload) = numChunks 1
      ∧ (handle_client (failAt 3) 1 (Except.ok (1, [4]))).st.trace.getLast?
          = some (Event.write .finalMarker)
      ∧ (handle_client (failAt 3) 1 (Except.ok (1, [4]))).st.trace.countP
          isCloseEv = 0) :=
  C2_amended_write_failure_cases 1 (by decide) [4]

/-- Oracle failing the payload write (index 2) and the subsequent close
attempt (index 4) of a first-frame abort. -/
def failAt2and4 : Nat → Bool := fun i => !(i == 2) && !(i == 4)

/-- Index of the final-marker write on an otherwise all-successful run:
one header write plus three writes per loop iteration. -/
def markerFailIdx (B : Nat) : Nat := 1 + 3 * loopIters B 0

/-- C3 counterexample: with budget `1` and only the final-marker write (the
fifth socket operation) failing, the whole streaming loop succeeds, yet the
task returns an `Err` outcome — an I/O failure after header emission that
the task propagates, contradicting the claim that only bind and header
emission failures propagate. -/
theorem C3_counterexample :
    (handle_client (failAt 4) 1 (Except.ok (1, []))).outcome = .err
    ∧ (handle_client (failAt 4) 1 (Except.ok (1, []))).st.trace
        = [Event.write .headerBlock, Event.write .sizeHeader, Event.write .payload,
           Event.write .terminator] := by
  have hstep := streamLoop_payloadOkStep (failAt 4) 1 0
    ⟨1, [Event.write .headerBlock], 0⟩ (by decide) (by decide) (by decide)
  simp only [failAt] at hstep
  norm_num at hstep
  have hexit := streamLoop_exit (failAt 4) 1 chunkSize
    ⟨4, [Event.write .headerBlock, Event.write .sizeHeader, Event.write .payload,
        Event.write .terminator], 1⟩
    (by simp [chunkSize])
  have hlo := hstep.trans hexit
  rw [handle_client_unfold (failAt 4) 1 1 [] (by decide) (by decide) _ hlo]
  have hm : failAt 4 4 = false := by decide
  simp [hm]

/-- C3 amended: per-connection failures after the initial read are not all
swallowed.  A read failure, a chunk-size-header write failure, a close
failure following a payload write failure, and a final-marker write failure
all make the task return `Err`; only a payload write failure whose close
succeeds is converted into a clean `Ok` exit (and a terminator write
failure is ignored entirely). -/
theorem C3_amended_propagation (B : Nat) (hB : 0 < B) (req : List Nat) :
    handle_client allOk B (Except.error ()) = ⟨.err, 0, ⟨0, [], 0⟩⟩
    ∧ (handle_client (failAt 1) B (Except.ok (1, req))).outcome = .err
    ∧ (handle_client failAt2and4 B (Except.ok (1, req))).outcome = .err
    ∧ ((handle_client (failAt (markerFailIdx B)) B (Except.ok (1, req))).outcome
          = .err
      ∧ (handle_client (failAt (markerFailIdx B)) B
          (Except.ok (1, req))).st.trace.countP (isWriteOf .finalMarker) = 0)
    ∧ (handle_client (failAt 2) B (Except.ok (1, req))).outcome = .ok := by
  refine ⟨rfl, ?_, ?_, ?_, ?_⟩
  · have hlo : streamLoop (failAt 1) B 0 ⟨1, [Event.write .headerBlock], 0⟩
        = ⟨.earlyErr, 0, ⟨2, [Event.write .headerBlock], 0⟩⟩ :=
      streamLoop_sizeHeaderFail (failAt 1) B 0 _ hB (by decide)
    rw [handle_client_unfold (failAt 1) B 1 req (by decide) (by decide) _ hlo]
  · have hlo := streamLoop_payloadFail failAt2and4 B 0
      ⟨1, [Event.write .headerBlock], 0⟩ hB (by decide) (by decide)
    simp only [failAt2and4] at hlo
    norm_num at hlo
    rw [handle_client_unfold failAt2and4 B 1 req (by decide) (by decide) _ hlo]
  · have h0 : failAt (markerFailIdx B) 0 = true := by
      simp only [failAt, markerFailIdx, Bool.not_eq_true', beq_eq_false_iff_ne]
      omega
    have hrest := streamLoop_ok_of (failAt (markerFailIdx B)) B 0
      ⟨1, [Event.write .headerBlock], 0⟩
      (by
        intro i hi hi2
        dsimp only at hi hi2
        simp only [failAt, markerFailIdx, Bool.not_eq_true', beq_eq_false_iff_ne]
        omega)
    dsimp only at hrest
    rw [handle_client_unfold (failAt (markerFailIdx B)) B 1 req (by decide) h0
      _ hrest]
    have hm : failAt (markerFailIdx B) (1 + 3 * loopIters B 0) = false := by
      simp [failAt, markerFailIdx]
    dsimp only
    rw [if_neg (by simp [hm])]
    refine ⟨rfl, ?_⟩
    have hc1 : List.countP (isWriteOf .finalMarker) [Event.write Msg.headerBlock]
        = 0 := by decide
    simp only [List.countP_append, List.countP_cons, List.countP_nil,
      framesTrace_countP_marker, hc1]
  · have hlo := streamLoop_payloadFail (failAt 2) B 0
      ⟨1, [Event.write .headerBlock], 0⟩ hB (by decide) (by decide)
    simp only [failAt] at hlo
    norm_num at hlo
    rw [handle_client_unfold (failAt 2) B 1 req (by decide) (by decide) _ hlo]

/-- Witness for the amended C3 at budget `1`. -/
theorem C3_amended_witness :
    handle_client allOk 1 (Except.error ()) = ⟨.err, 0, ⟨0, [], 0⟩⟩
    ∧ (handle_client (failAt 1) 1 (Except.ok (1, [7]))).outcome = .err
    ∧ (handle_client failAt2and4 1 (Except.ok (1, [7]))).outcome = .err
    ∧ ((handle_client (failAt (markerFailIdx 1)) 1 (Except.ok (1, [7]))).outcome
          = .err
      ∧ (handle_client (failAt (markerFailIdx 1)) 1
          (Except.ok (1, [7]))).st.trace.countP (isWriteOf .finalMarker) = 0)
    ∧ (handle_client (failAt 2) 1 (Except.ok (1, [7]))).outcome = .ok :=
  C3_amended_propagation 1 (by decide) [7]

/-- C10: the streamer output is deterministic — for any all-successful
oracle and fixed budget, two connections whose initial reads return nonzero
byte counts receive identical results, whatever request bytes were read;
and every payload byte is zero. -/
theorem C10_deterministic_output (orac : Nat → Bool) (horac : ∀ i, orac i = true)
    (B n₁ n₂ : Nat) (req₁ req₂ : List Nat) (h₁ : 0 < n₁) (h₂ : 0 < n₂) :
    handle_client orac B (Except.ok (n₁, req₁))
        = handle_client orac B (Except.ok (n₂, req₂))
    ∧ ∀ b ∈ Msg.payload.bytes, b = 0 := by
  have ho : orac = allOk := funext fun i => horac i
  subst ho
  refine ⟨?_, ?_⟩
  · rw [handle_client_allOk B n₁ req₁ (by omega), handle_client_allOk B n₂ req₂ (by omega)]
  · intro b hb
    simp only [Msg.bytes] at hb
    exact List.eq_of_mem_replicate hb

/-- Witness for C10 at budget `0`, reads of `1` and `2` bytes. -/
theorem C10_witness :
    handle_client allOk 0 (Except.ok (1, []))
        = handle_client allOk 0 (Except.ok (2, [3]))
    ∧ ∀ b ∈ Msg.payload.bytes, b = 0 :=
  C10_deterministic_output allOk (fun _ => rfl) 0 1 2 [] [3] (by decide) (by decide)

/-- Value of an ASCII hexadecimal digit byte. -/
def hexDigitVal (b : Nat) : Option Nat :=
  if 48 ≤ b ∧ b ≤ 57 then some (b - 48)
  else if 65 ≤ b ∧ b ≤ 70 then some (b - 55)
  else if 97 ≤ b ∧ b ≤ 102 then some (b - 87)
  else none

/-- Parse a big-endian ASCII hexadecimal byte string. -/
def parseHex (l : List Nat) : Option Nat :=
  l.foldl (fun acc b =>
    match acc, hexDigitVal b with
    | some a, some d => some (16 * a + d)
    | _, _ => none) (some 0)

theorem payload_bytes_length : Msg.payload.bytes.length = 1048576 := by
  show (List.replicate chunkSize 0).length = 1048576
  rw [List.length_replicate]
  decide

/-- C5: every non-terminal chunk frame declares its payload size exactly.
The size header is the hex digits `"100000"` followed by `CRLF`, those
digits parse to `0x100000 = 1048576`, which is exactly the payload length;
the terminator is `CRLF`; and on a completed connection the trace consists
of the header block, whole frames (size header, then payload, then
terminator, in that order) and the final marker. -/
theorem C5_declared_size_matches_payload :
    Msg.sizeHeader.bytes = strBytes "100000" ++ [13, 10]
    ∧ parseHex (strBytes "100000") = some Msg.payload.bytes.length
    ∧ Msg.payload.bytes.length = 1048576
    ∧ Msg.terminator.bytes = [13, 10]
    ∧ (∀ B n req, 0 < n →
        (handle_client allOk B (Except.ok (n, req))).st.trace
          = Event.write .headerBlock ::
              (framesTrace (numChunks B) ++ [Event.write .finalMarker]))
    ∧ (∀ k, framesTrace (k + 1)
        = Event.write .sizeHeader :: Event.write .payload ::
            Event.write .terminator :: framesTrace k) := by
  refine ⟨by decide, ?_, payload_bytes_length, by decide, ?_, fun k => rfl⟩
  · rw [payload_bytes_length]
    decide
  · intro B n req hn
    rw [handle_client_allOk B n req (by omega)]

/-- Witness for C5 at the 2 MiB scenario. -/
theorem C5_witness :
    (handle_client allOk (2 * 1024 * 1024) (Except.ok (4, [2]))).st.trace
      = Event.write .headerBlock ::
          (framesTrace (numChunks (2 * 1024 * 1024)) ++ [Event.write .finalMarker]) :=
  C5_declared_size_matches_payload.2.2.2.2.1 (2 * 1024 * 1024) 4 [2] (by decide)

/-- Shape of any `handle_client` trace with respect to the final marker:
either no marker was written, or the trace is a marker-free, close-free
prefix followed by exactly one final marker at the very end. -/
theorem handle_client_marker_cases (orac : Nat → Bool) (B : Nat)
    (rr : Except Unit (Nat × List Nat)) :
    ((handle_client orac B rr).st.trace).countP (isWriteOf .finalMarker) = 0
    ∨ ∃ X, (handle_client orac B rr).st.trace = X ++ [Event.write .finalMarker]
        ∧ X.countP (isWriteOf .finalMarker) = 0 ∧ X.countP isCloseEv = 0 := by
  have hcHB : List.countP (isWriteOf .finalMarker) [Event.write Msg.headerBlock]
      = 0 := by decide
  have hcHBc : List.countP isCloseEv [Event.write Msg.headerBlock] = 0 := by decide
  cases rr with
  | error => exact Or.inl rfl
  | ok p =>
    obtain ⟨n, req⟩ := p
    by_cases hn : n = 0
    · subst hn
      exact Or.inl rfl
    · by_cases h0 : orac 0 = true
      · rcases hsl : streamLoop orac B 0 ⟨1, [Event.write .headerBlock], 0⟩
          with ⟨res, sv, st⟩
        have hu := handle_client_unfold orac B n req hn h0 _ hsl
        have hM : st.trace.countP (isWriteOf .finalMarker) = 0 := by
          have hw := streamLoop_countP_of_writes (isWriteOf .finalMarker)
            (by decide) (by decide) (by decide) (by decide) orac B 0
            ⟨1, [Event.write .headerBlock], 0⟩
          rw [hsl] at hw
          dsimp only at hw
          rw [hw, hcHB]
        cases res with
        | finished =>
          have hC : st.trace.countP isCloseEv = 0 := by
            have hw := streamLoop_countP_close_finished orac B 0
              ⟨1, [Event.write .headerBlock], 0⟩ (by rw [hsl])
            rw [hsl] at hw
            dsimp only at hw
            rw [hw, hcHBc]
          rw [hu]
          dsimp only
          by_cases hm : orac st.idx = true
          · rw [if_pos hm]
            exact Or.inr ⟨st.trace, rfl, hM, hC⟩
          · rw [if_neg hm]
            exact Or.inl hM
        | earlyOk =>
          rw [hu]
          exact Or.inl hM
        | earlyErr =>
          rw [hu]
          exact Or.inl hM
      · have h0f : orac 0 = false := by simpa using h0
        refine Or.inl ?_
        simp [handle_client, if_neg hn, attemptWrite, initSt, h0f]

/-- C7: the terminal marker `"0\r\n\r\n"` is written at most once on any
connection; when present it is the very last event of the trace (after the
streaming loop has ended, never before the last data chunk); it is never
written on a connection that attempted a close (an aborted stream); and on
a connection that completes (nonzero read, all operations succeeding) it is
written exactly once. -/
theorem C7_terminal_marker_once (orac : Nat → Bool) (B : Nat)
    (rr : Except Unit (Nat × List Nat)) :
    (handle_client orac B rr).st.trace.countP (isWriteOf .finalMarker) ≤ 1
    ∧ (Event.write Msg.finalMarker ∈ (handle_client orac B rr).st.trace →
        (handle_client orac B rr).st.trace.getLast?
          = some (Event.write Msg.finalMarker))
    ∧ (Event.close ∈ (handle_client orac B rr).st.trace →
        (handle_client orac B rr).st.trace.countP (isWriteOf .finalMarker) = 0)
    ∧ (∀ n req, rr = Except.ok (n, req) → n ≠ 0 → (∀ i, orac i = true) →
        (handle_client orac B rr).st.trace.countP (isWriteOf .finalMarker) = 1) := by
  have hnotmem : ∀ (l : List Event), l.countP (isWriteOf .finalMarker) = 0 →
      Event.write Msg.finalMarker ∉ l := by
    intro l hl hm
    have hpos : 0 < l.countP (isWriteOf .finalMarker) :=
      List.countP_pos_iff.mpr ⟨_, hm, by decide⟩
    omega
  have hnotclose : ∀ (l : List Event), l.countP isCloseEv = 0 →
      Event.close ∉ l := by
    intro l hl hm
    have hpos : 0 < l.countP isCloseEv := List.countP_pos_iff.mpr ⟨_, hm, by decide⟩
    omega
  refine ⟨?_, ?_, ?_, ?_⟩
  · rcases handle_client_marker_cases orac B rr with hz | ⟨X, hX, hXm, _⟩
    · omega
    · rw [hX]
      have hone : List.countP (isWriteOf .finalMarker) [Event.write Msg.finalMarker]
          = 1 := by decide
      rw [List.countP_append, hXm, hone]
  · intro hmem
    rcases handle_client_marker_cases orac B rr with hz | ⟨X, hX, _, _⟩
    · exact absurd hmem (hnotmem _ hz)
    · rw [hX]
      exact List.getLast?_concat _
  · intro hclose
    rcases handle_client_marker_cases orac B rr with hz | ⟨X, hX, _, hXc⟩
    · exact hz
    · exfalso
      rw [hX] at hclose
      rcases List.mem_append.mp hclose with hc | hc
      · exact hnotclose X hXc hc
      · simp at hc
  · intro n req hrr hn horac
    subst hrr
    rw [handle_client_ok_of orac B n req (loopIters B 0) hn rfl
      (fun i _ => horac i)]
    dsimp only
    have hcHB : isWriteOf Msg.finalMarker (Event.write Msg.headerBlock) = false := by
      decide
    have hone : List.countP (isWriteOf .finalMarker) [Event.write Msg.finalMarker]
        = 1 := by decide
    simp only [List.countP_cons, List.countP_append, hone,
      framesTrace_countP_marker, hcHB]
    simp

/-- Witness for C7: the marker-is-last part at a completed budget-0 run, the
never-on-abort part at a first-frame payload failure, and the exactly-once
part at a completed run. -/
theorem C7_witness :
    (handle_client allOk 0 (Except.ok (1, [5]))).st.trace.getLast?
        = some (Event.write Msg.finalMarker)
    ∧ (handle_client (failAt 2) 1 (Except.ok (1, [5]))).st.trace.countP
        (isWriteOf .finalMarker) = 0
    ∧ (handle_client allOk 0 (Except.ok (1, [5]))).st.trace.countP
        (isWriteOf .finalMarker) = 1 := by
  have htr : (handle_client allOk 0 (Except.ok (1, [5]))).st.trace
      = [Event.write .headerBlock, Event.write .finalMarker] := by
    rw [handle_client_allOk 0 1 [5] (by decide)]
    have h0 : numChunks 0 = 0 := by
      simp only [numChunks, chunkSize]
    rw [h0]
    rfl
  have habort : (handle_client (failAt 2) 1 (Except.ok (1, [5]))).st.trace
      = [Event.write .headerBlock, Event.write .sizeHeader,
         Event.write .terminator, Event.close] := by
    have hlo := streamLoop_payloadFail (failAt 2) 1 0
      ⟨1, [Event.write .headerBlock], 0⟩ (by decide) (by decide) (by decide)
    simp only [failAt] at hlo
    norm_num at hlo
    rw [handle_client_unfold (failAt 2) 1 1 [5] (by decide) (by decide) _ hlo]
  refine ⟨(C7_terminal_marker_once allOk 0 (Except.ok (1, [5]))).2.1 ?_,
    (C7_terminal_marker_once (failAt 2) 1 (Except.ok (1, [5]))).2.2.1 ?_,
    (C7_terminal_marker_once allOk 0 (Except.ok (1, [5]))).2.2.2 1 [5] rfl
      (by decide) (fun _ => rfl)⟩
  · rw [htr]
    decide
  · rw [habort]
    decide

/-- Process-level events of `main`, in program order. -/
inductive ProcEvent
  | storeBudget (v : Nat)
  | bindStep
  | acceptStep
deriving DecidableEq, Repr

/-- Is this event a write to `MAX_SEND_BYTES`? -/
def ProcEvent.isStore : ProcEvent → Bool
  | .storeBudget _ => true
  | _ => false

/-- The store operations `main` performs on `MAX_SEND_BYTES` before
binding: exactly one (`MAX_SEND_BYTES.store(bytes, Ordering::Release)`) if
the `MAX_SEND_BYTES` environment variable parsed, none otherwise. -/
def startupStores (envBytes : Option Nat) : List ProcEvent :=
  match envBytes with
  | some b => [ProcEvent.storeBudget b]
  | none => []

/-- The value held by `MAX_SEND_BYTES` after startup: the parsed
environment value, or the static initializer `32 GiB`. -/
def budgetAfterStartup (envBytes : Option Nat) : Nat :=
  match envBytes with
  | some b => b
  | none => defaultMaxSendBytes

/-- Event sequence of `main` once `k` connections have been accepted: the
optional store, then the bind, then `k` accepts (the loop body only
accepts and spawns; it contains no store). -/
def mainEvents (envBytes : Option Nat) (k : Nat) : List ProcEvent :=
  startupStores envBytes ++ [ProcEvent.bindStep]
    ++ List.replicate k ProcEvent.acceptStep

/-- The budget the `i`-th spawned `handle_client` loads with
`MAX_SEND_BYTES.load(Ordering::Acquire)`.  Because the only store precedes
the bind (and hence every accept and spawn), every connection observes the
same post-startup value. -/
def spawnedHandlerBudget (envBytes : Option Nat) (_i : Nat) : Nat :=
  budgetAfterStartup envBytes

theorem no_store_after_accept_aux :
    ∀ (xs ys pre post : List ProcEvent),
      (∀ e ∈ xs, e ≠ ProcEvent.acceptStep) → (∀ e ∈ ys, e.isStore = false) →
      xs ++ ys = pre ++ ProcEvent.acceptStep :: post →
      ∀ e ∈ post, e.isStore = false := by
  intro xs
  induction xs with
  | nil =>
    intro ys pre post _ hys heq e he
    simp only [List.nil_append] at heq
    subst heq
    exact hys e (List.mem_append_right _ (List.mem_cons_of_mem _ he))
  | cons x xs IH =>
    intro ys pre post hxs hys heq e he
    cases pre with
    | nil =>
      simp only [List.nil_append, List.cons_append] at heq
      injection heq with h1 h2
      exact absurd h1 (hxs x (List.mem_cons_self x xs))
    | cons p pre =>
      simp only [List.cons_append] at heq
      injection heq with h1 h2
      exact IH ys pre post (fun e2 he2 => hxs e2 (List.mem_cons_of_mem _ he2))
        hys h2 e he

/-- C8: in the event order of `main`, `MAX_SEND_BYTES` is stored at most
once, and only before any connection is accepted — every event after an
accept is a non-store — so every spawned connection handler loads the same
stable budget value. -/
theorem C8_budget_set_once_before_accepts (envBytes : Option Nat) (k : Nat) :
    (mainEvents envBytes k).countP ProcEvent.isStore ≤ 1
    ∧ (∀ pre post, mainEvents envBytes k = pre ++ ProcEvent.acceptStep :: post →
        ∀ e ∈ post, e.isStore = false)
    ∧ (∀ i j, spawnedHandlerBudget envBytes i = spawnedHandlerBudget envBytes j) := by
  have hrep : ∀ m, (List.replicate m ProcEvent.acceptStep).countP ProcEvent.isStore
      = 0 := by
    intro m
    induction m with
    | zero => rfl
    | succ m IH => simp [List.replicate, List.countP_cons, IH, ProcEvent.isStore]
  refine ⟨?_, ?_, fun i j => rfl⟩
  · cases envBytes with
    | none =>
      simp [mainEvents, startupStores, List.countP_append, hrep,
        List.countP_cons, ProcEvent.isStore]
    | some b =>
      simp [mainEvents, startupStores, List.countP_append, hrep,
        List.countP_cons, ProcEvent.isStore]
  · intro pre post heq e he
    refine no_store_after_accept_aux
      (startupStores envBytes ++ [ProcEvent.bindStep])
      (List.replicate k ProcEvent.acceptStep) pre post ?_ ?_ ?_ e he
    · intro x hx
      rcases List.mem_append.mp hx with hx | hx
      · cases envBytes with
        | none => simp [startupStores] at hx
        | some b =>
          simp only [startupStores, List.mem_singleton] at hx
          subst hx
          simp
      · simp only [List.mem_singleton] at hx
        subst hx
        simp
    · intro x hx
      have hx2 := List.eq_of_mem_replicate hx
      subst hx2
      rfl
    · exact heq

/-- Witness for C8 with `MAX_SEND_BYTES=7` in the environment and two
accepted connections. -/
theorem C8_witness :
    (mainEvents (some 7) 2).countP ProcEvent.isStore ≤ 1
    ∧ ProcEvent.isStore ProcEvent.acceptStep = false
    ∧ spawnedHandlerBudget (some 7) 0 = spawnedHandlerBudget (some 7) 5 :=
  ⟨(C8_budget_set_once_before_accepts (some 7) 2).1,
   (C8_budget_set_once_before_accepts (some 7) 2).2.1
     [ProcEvent.storeBudget 7, ProcEvent.bindStep] [ProcEvent.acceptStep] rfl
     ProcEvent.acceptStep (by decide),
   (C8_budget_set_once_before_accepts (some 7) 2).2.2 0 5⟩

end FastServer
